import Mathlib

/- Verification of the PDVC dense-video-captioning prediction and evaluation
   pipeline (pdvc/pdvc.py and eval_utils.py), as a shallow embedding.
   Machine floats are modelled as rationals; tensors as (nested) lists;
   Python dicts keyed by strings as association lists or key lists;
   fallible Python code (KeyError, IndexError, AssertionError, ValueError)
   returns Option / Except. -/

/- ===================================================================
   PDVC.parallel_prediction_matched, aux_loss = False branch
   (pdvc/pdvc.py lines 355-489): dict-key bookkeeping of the output dict.
   =================================================================== -/

/-- Keys of `all_out` built in `parallel_prediction_matched` (pdvc.py 418-425).
The keys `caption_losses` and `caption_costs` are commented out in the source,
so they are NOT present. `out` is built as the last layer slice of `all_out`
and has exactly these keys. -/
def matched_all_out_keys : List String :=
  ["pred_logits", "pred_count", "pred_boxes", "caption_probs", "seq", "cl_match_mats"]

/-- Python `dict.pop(k)` with no default: removes the key, or raises `KeyError`
(modelled as `none`) when the key is absent. -/
def dict_pop (keys : List String) (k : String) : Option (List String) :=
  if k ∈ keys then some (keys.erase k) else none

/-- Decoder layers whose caption (and contrastive) loss is computed by
`parallel_prediction_matched`: with `aux_loss` every layer `0..num_pred-1`
(pdvc.py 433), without it only the final layer `num_pred - 1` (pdvc.py 463). -/
def matched_caption_loss_layers (num_pred : ℕ) (aux_loss : Bool) : List ℕ :=
  if aux_loss then List.range num_pred else [num_pred - 1]

/-- Epilogue of the `aux_loss = False` branch of `parallel_prediction_matched`
(pdvc.py 485-486): `out.pop('caption_losses')` then `out.pop('caption_costs')`,
both without a default. -/
def matched_no_aux_epilogue (out_keys : List String) : Option (List String) :=
  (dict_pop out_keys "caption_losses").bind (fun out1 => dict_pop out1 "caption_costs")

/-- C1: with auxiliary loss disabled, `parallel_prediction_matched` computes the
caption loss only for the final decoder layer (using the final-layer match
indices), but its epilogue then pops the keys `caption_losses` and
`caption_costs` from an output dict that does not contain them (they are
commented out of `all_out`), so the call raises `KeyError` instead of
returning the assembled output dict and loss mapping. -/
theorem parallel_prediction_matched_no_aux_keyerror (num_pred : ℕ) :
    matched_caption_loss_layers num_pred false = [num_pred - 1]
    ∧ matched_no_aux_epilogue matched_all_out_keys = none := by
  constructor
  · rfl
  · decide

/- ===================================================================
   PostProcess segment conversion (pdvc/pdvc.py lines 734-741).
   =================================================================== -/

/-- Modelled from the spec: `box_ops.box_cl_to_xy` lives in
`misc/detr_utils/box_ops.py`, which is not under src/; spec section 4.1
specifies the conversion of a (center, length) segment to (start, end)
form, i.e. `(c - l/2, c + l/2)`. -/
def box_cl_to_xy (b : ℚ × ℚ) : ℚ × ℚ :=
  (b.1 - b.2 / 2, b.1 + b.2 / 2)

/-- Elementwise clipping done by `boxes[boxes < 0] = 0` followed by
`boxes[boxes > 1] = 1` (pdvc.py 736-737). -/
def clip01 (x : ℚ) : ℚ :=
  let y := if x < 0 then 0 else x
  if 1 < y then 1 else y

/-- Segment pipeline of `PostProcess.forward` for one predicted box
(pdvc.py 734-741): convert center-length to start-end, clip both
coordinates to [0,1], then scale by the video duration `target_size`
(`scale_fct` stacks the duration twice). -/
def postprocess_box (out_bbox : ℚ × ℚ) (target_size : ℚ) : ℚ × ℚ :=
  let b := box_cl_to_xy out_bbox
  (clip01 b.1 * target_size, clip01 b.2 * target_size)

lemma clip01_nonneg (x : ℚ) : 0 ≤ clip01 x := by
  by_cases h1 : x < 0
  · norm_num [clip01, h1]
  · have hx : 0 ≤ x := not_lt.mp h1
    simp only [clip01, h1, if_false]
    split_ifs <;> linarith

lemma clip01_le_one (x : ℚ) : clip01 x ≤ 1 := by
  by_cases h1 : x < 0
  · norm_num [clip01, h1]
  · have hx : 0 ≤ x := not_lt.mp h1
    simp only [clip01, h1, if_false]
    split_ifs <;> linarith

/-- C5: every coordinate of a post-processed segment lies in [0, duration]:
the center-length box is converted to start-end, clipped to [0,1], and then
scaled by the (nonnegative) video duration, in that order. -/
theorem postprocess_box_range (out_bbox : ℚ × ℚ) (target_size : ℚ)
    (hd : 0 ≤ target_size) :
    0 ≤ (postprocess_box out_bbox target_size).1
    ∧ (postprocess_box out_bbox target_size).1 ≤ target_size
    ∧ 0 ≤ (postprocess_box out_bbox target_size).2
    ∧ (postprocess_box out_bbox target_size).2 ≤ target_size := by
  unfold postprocess_box
  refine ⟨mul_nonneg (clip01_nonneg _) hd, ?_, mul_nonneg (clip01_nonneg _) hd, ?_⟩
  · exact mul_le_of_le_one_left hd (clip01_le_one _)
  · exact mul_le_of_le_one_left hd (clip01_le_one _)

/-- C5 witness: the bounds theorem applied at the concrete box (1/2, 3) with
duration 10. -/
theorem postprocess_box_range_witness :
    (0 : ℚ) ≤ 10
    ∧ (0 ≤ (postprocess_box ((1 : ℚ)/2, 3) 10).1
       ∧ (postprocess_box ((1 : ℚ)/2, 3) 10).1 ≤ 10
       ∧ 0 ≤ (postprocess_box ((1 : ℚ)/2, 3) 10).2
       ∧ (postprocess_box ((1 : ℚ)/2, 3) 10).2 ≤ 10) :=
  ⟨by decide, postprocess_box_range ((1 : ℚ)/2, 3) 10 (by decide)⟩

/- ===================================================================
   PostProcess caption scoring (pdvc/pdvc.py lines 747-776).
   =================================================================== -/

/-- Caption score of one selected query for fixed-vocabulary decoders
(pdvc.py 763-767): `mask = (seq > 0).float()` and
`cap_scores = (mask * cap_prob).sum(2)`, i.e. a masked sum of per-token
log-probabilities along the token axis. -/
def cap_score (seq : List ℤ) (cap_prob : List ℚ) : ℚ :=
  (List.zipWith (fun tok p => (if 0 < tok then (1 : ℚ) else 0) * p) seq cap_prob).sum

/-- Caption score of one selected query for the free-form gpt2 decoder
(pdvc.py 758-760): `cap_scores = (mask * cap_prob).sum(2)` with `mask` the
generation-time mask `gen_mask`. -/
def cap_score_gen (gen_mask : List ℚ) (cap_prob : List ℚ) : ℚ :=
  (List.zipWith (fun m p => m * p) gen_mask cap_prob).sum

lemma cap_score_eq_filter_sum (seq : List ℤ) (cap_prob : List ℚ) :
    cap_score seq cap_prob
      = (((seq.zip cap_prob).filter (fun tp => decide (0 < tp.1))).map Prod.snd).sum := by
  induction seq generalizing cap_prob with
  | nil => simp [cap_score]
  | cons tok rest ih =>
    cases cap_prob with
    | nil => simp [cap_score]
    | cons p ps =>
      by_cases h : 0 < tok
      · simp [cap_score, List.zip_cons_cons, h, List.filter_cons]
        simpa [cap_score] using ih ps
      · simp [cap_score, List.zip_cons_cons, h, List.filter_cons]
        simpa [cap_score] using ih ps

lemma cap_score_gen_eq_filter_sum (gen_mask : List ℚ) (cap_prob : List ℚ)
    (hmask : ∀ m ∈ gen_mask, m = 0 ∨ m = 1) :
    cap_score_gen gen_mask cap_prob
      = (((gen_mask.zip cap_prob).filter (fun mp => decide (mp.1 = 1))).map Prod.snd).sum := by
  induction gen_mask generalizing cap_prob with
  | nil => simp [cap_score_gen]
  | cons m rest ih =>
    cases cap_prob with
    | nil => simp [cap_score_gen]
    | cons p ps =>
      have hm : m = 0 ∨ m = 1 := hmask m (List.mem_cons_self _ _)
      have hrest : ∀ x ∈ rest, x = 0 ∨ x = 1 :=
        fun x hx => hmask x (List.mem_cons_of_mem _ hx)
      rcases hm with hm | hm
      · subst hm
        simp [cap_score_gen, List.zip_cons_cons, List.filter_cons]
        simpa [cap_score_gen] using ih ps hrest
      · subst hm
        simp [cap_score_gen, List.zip_cons_cons, List.filter_cons]
        simpa [cap_score_gen] using ih ps hrest

/-- C6: the caption score of a selected query is the sum (no averaging) of the
per-token log-probabilities over exactly the non-padding tokens: tokens with
id > 0 for fixed-vocabulary decoders, and the generation-time mask positions
for the free-form gpt2 decoder (assuming a 0/1 mask). -/
theorem cap_score_sum_over_nonpad (seq : List ℤ) (gen_mask cap_prob cap_prob2 : List ℚ)
    (hmask : ∀ m ∈ gen_mask, m = 0 ∨ m = 1) :
    cap_score seq cap_prob
      = (((seq.zip cap_prob).filter (fun tp => decide (0 < tp.1))).map Prod.snd).sum
    ∧ cap_score_gen gen_mask cap_prob2
      = (((gen_mask.zip cap_prob2).filter (fun mp => decide (mp.1 = 1))).map Prod.snd).sum :=
  ⟨cap_score_eq_filter_sum seq cap_prob, cap_score_gen_eq_filter_sum gen_mask cap_prob2 hmask⟩

/-- C6 witness: the masked-sum theorem applied to the concrete sequence
[3, 0, 7] with log-probabilities [1/2, 1/4, 1/8] and gpt2 mask [1, 0]. -/
theorem cap_score_sum_over_nonpad_witness :
    (∀ m ∈ [(1 : ℚ), 0], m = 0 ∨ m = 1)
    ∧ (cap_score [3, 0, 7] [(1 : ℚ)/2, 1/4, 1/8]
        = ((([(3 : ℤ), 0, 7].zip [(1 : ℚ)/2, 1/4, 1/8]).filter
            (fun tp => decide (0 < tp.1))).map Prod.snd).sum
      ∧ cap_score_gen [(1 : ℚ), 0] [(1 : ℚ)/3, 1/5]
        = ((([(1 : ℚ), 0].zip [(1 : ℚ)/3, 1/5]).filter
            (fun mp => decide (mp.1 = 1))).map Prod.snd).sum) :=
  ⟨by decide,
   cap_score_sum_over_nonpad [3, 0, 7] [(1 : ℚ), 0] [(1 : ℚ)/2, 1/4, 1/8]
     [(1 : ℚ)/3, 1/5] (by decide)⟩

/- ===================================================================
   Captioning in the full/parallel prediction policy
   (pdvc/pdvc.py lines 271-278 and 651-672).
   =================================================================== -/

/-- Decoder type passed to `caption_prediction_eval` at layer `l_id` of
`parallel_prediction_full` (pdvc.py 273-278):
`if l_id != hs.shape[0] - 1 or disable_captioning:` use `'none'`, otherwise
the configured `opt.caption_decoder_type`. -/
def caption_decoder_type_at (num_pred : ℕ) (disable_captioning : Bool)
    (caption_decoder_type : String) (l_id : ℕ) : String :=
  if l_id ≠ num_pred - 1 ∨ disable_captioning = true then "none"
  else caption_decoder_type

/-- Decoder types used over the whole per-layer loop of
`parallel_prediction_full`; the loop calls `caption_prediction_eval`
(eval/sampling mode) at every layer with this type. -/
def parallel_prediction_full_caption_types (num_pred : ℕ)
    (disable_captioning : Bool) (caption_decoder_type : String) : List String :=
  (List.range num_pred).map
    (caption_decoder_type_at num_pred disable_captioning caption_decoder_type)

/-- Return value of `caption_prediction_eval`: the `cap_probs` dict entries and
the sampled sequence tensor. -/
structure CapProbsEval where
  cap_prob_train : List ℚ
  cap_prob_eval : List (List (List ℚ))
deriving DecidableEq

/-- Zero tensor of shape (a, b, c). -/
def zeros3 (a b c : ℕ) : List (List (List ℚ)) :=
  List.replicate a (List.replicate b (List.replicate c 0))

/-- The `decoder_type in ['none']` branch of `caption_prediction_eval`
(pdvc.py 668-672): zero placeholder probabilities
(`cap_prob_train = zeros(1)`, `cap_prob_eval = zeros(N, N_q, 3)`) and a zero
placeholder sequence `seq = zeros(N, N_q, 3)`. -/
def caption_prediction_eval_none (N N_q : ℕ) : CapProbsEval × List (List (List ℚ)) :=
  ({ cap_prob_train := [0], cap_prob_eval := zeros3 N N_q 3 }, zeros3 N N_q 3)

lemma zeros3_all_zero (a b c : ℕ) : ∀ x ∈ (zeros3 a b c).flatten.flatten, x = 0 := by
  intro x hx
  simp only [zeros3] at hx
  rcases List.mem_flatten.mp hx with ⟨l1, h1, hx1⟩
  rcases List.mem_flatten.mp h1 with ⟨l2, h2, h12⟩
  have hl2 := List.eq_of_mem_replicate h2
  subst hl2
  have hl1 := List.eq_of_mem_replicate h12
  subst hl1
  exact List.eq_of_mem_replicate hx1

/-- C7: in the full/parallel policy every non-final decoder layer invokes the
caption head in eval (sampling) mode with decoder type `'none'`, which returns
zero placeholder probabilities and sequences of shape (N, N_q, 3); the final
layer uses the configured caption decoder type, unless captioning is disabled
for the call, in which case it also gets `'none'`. -/
theorem full_policy_caption_generation (num_pred N N_q : ℕ)
    (disable_captioning : Bool) (cfg_type : String) (l_id : ℕ)
    (hl : l_id < num_pred - 1) :
    (parallel_prediction_full_caption_types num_pred disable_captioning cfg_type).get? l_id
      = some "none"
    ∧ (0 < num_pred →
        (parallel_prediction_full_caption_types num_pred false cfg_type).get? (num_pred - 1)
          = some cfg_type)
    ∧ caption_decoder_type_at num_pred true cfg_type (num_pred - 1) = "none"
    ∧ (∀ x ∈ (caption_prediction_eval_none N N_q).1.cap_prob_eval.flatten.flatten, x = 0)
    ∧ (∀ x ∈ (caption_prediction_eval_none N N_q).2.flatten.flatten, x = 0)
    ∧ (caption_prediction_eval_none N N_q).1.cap_prob_train = [0]
    ∧ (caption_prediction_eval_none N N_q).2.length = N
    ∧ (∀ row ∈ (caption_prediction_eval_none N N_q).2, row.length = N_q) := by
  have hlt : l_id < num_pred := lt_of_lt_of_le hl (Nat.sub_le _ _)
  refine ⟨?_, ?_, ?_, zeros3_all_zero _ _ _, zeros3_all_zero _ _ _, rfl, ?_, ?_⟩
  · have hne : l_id ≠ num_pred - 1 := Nat.ne_of_lt hl
    have h1 : (List.range num_pred)[l_id]? = some l_id := by
      simp [List.getElem?_range, hlt]
    simp [parallel_prediction_full_caption_types, List.get?_eq_getElem?,
      List.getElem?_map, h1, caption_decoder_type_at, hne]
  · intro hpos
    have hlast : num_pred - 1 < num_pred := Nat.sub_lt hpos one_pos
    have h1 : (List.range num_pred)[num_pred - 1]? = some (num_pred - 1) := by
      simp [List.getElem?_range, hlast]
    simp [parallel_prediction_full_caption_types, List.get?_eq_getElem?,
      List.getElem?_map, h1, caption_decoder_type_at]
  · simp [caption_decoder_type_at]
  · simp [caption_prediction_eval_none, zeros3]
  · intro row hrow
    have := List.eq_of_mem_replicate hrow
    subst this
    simp

/-- C7 witness: with 3 decoder layers, layer 0 gets decoder type `'none'`,
layer 2 gets the configured type `'standard'`, and the `'none'` branch output
for shape (1, 2, 3) is the all-zero placeholder. -/
theorem full_policy_caption_generation_witness :
    (0 : ℕ) < 3 - 1
    ∧ ((parallel_prediction_full_caption_types 3 false "standard").get? 0 = some "none"
      ∧ (0 < 3 →
          (parallel_prediction_full_caption_types 3 false "standard").get? (3 - 1)
            = some "standard")
      ∧ caption_decoder_type_at 3 true "standard" (3 - 1) = "none"
      ∧ (∀ x ∈ (caption_prediction_eval_none 1 2).1.cap_prob_eval.flatten.flatten, x = 0)
      ∧ (∀ x ∈ (caption_prediction_eval_none 1 2).2.flatten.flatten, x = 0)
      ∧ (caption_prediction_eval_none 1 2).1.cap_prob_train = [0]
      ∧ (caption_prediction_eval_none 1 2).2.length = 1
      ∧ (∀ row ∈ (caption_prediction_eval_none 1 2).2, row.length = 2)) :=
  ⟨by decide, full_policy_caption_generation 3 1 2 false "standard" 0 (by decide)⟩

/- ===================================================================
   Contrastive text-embedding layer bridge
   (pdvc/pdvc.py lines 291-297 and 390-396).
   =================================================================== -/

/-- Text-embedding layer bridge run per layer when contrastive learning is
enabled (pdvc.py 291-297, identically 390-396):
if `len(text_embed) < num_pred`, unpack `raw_text_emd, context_text_embed =
text_embed` (a `ValueError` stops the run when the list does not have exactly
two elements) and replace it by `[raw] * (num_pred - 1) + [context]`;
afterwards `assert len(text_embed) == num_pred` (an `AssertionError` stops the
run on any remaining mismatch). -/
def bridge_text_embed {α : Type} (text_embed : List α) (num_pred : ℕ) :
    Except String (List α) :=
  if text_embed.length < num_pred then
    match text_embed with
    | [raw_text_emd, context_text_embed] =>
      let text_embed_new := List.replicate (num_pred - 1) raw_text_emd ++ [context_text_embed]
      if text_embed_new.length = num_pred then Except.ok text_embed_new
      else Except.error "AssertionError"
    | _ => Except.error "ValueError"
  else
    if text_embed.length = num_pred then Except.ok text_embed
    else Except.error "AssertionError"

/-- C8: a 2-element text-embedding list (raw, context) shorter than the layer
count L is broadcast to L-1 copies of the raw embedding followed by the
context embedding; any other length mismatch with L is a fatal failure (an
assertion failure, or an unpacking failure for short lists that are not
pairs) — the computation stops and never returns a truncated or padded list:
every successful result has exactly L entries. -/
theorem text_embed_bridge_spec {α : Type} (raw context : α) (te : List α)
    (num_pred : ℕ) (h2 : 2 < num_pred) :
    bridge_text_embed [raw, context] num_pred
      = Except.ok (List.replicate (num_pred - 1) raw ++ [context])
    ∧ (num_pred < te.length → ∃ e, bridge_text_embed te num_pred = Except.error e)
    ∧ (te.length < num_pred → te.length ≠ 2 →
        ∃ e, bridge_text_embed te num_pred = Except.error e)
    ∧ (∀ r : List α, bridge_text_embed te num_pred = Except.ok r → r.length = num_pred) := by
  refine ⟨?_, ?_, ?_, ?_⟩
  · have hlen : ([raw, context] : List α).length < num_pred := by
      simpa using h2
    have hnew : (List.replicate (num_pred - 1) raw ++ [context]).length = num_pred := by
      simp [List.length_replicate]
      omega
    unfold bridge_text_embed
    rw [if_pos hlen]
    dsimp only
    rw [if_pos hnew]
  · intro hgt
    have hnlt : ¬ te.length < num_pred := by omega
    have hne : ¬ te.length = num_pred := by omega
    exact ⟨"AssertionError", by simp [bridge_text_embed, hnlt, hne]⟩
  · intro hlt hne2
    refine ⟨"ValueError", ?_⟩
    simp only [bridge_text_embed, if_pos hlt]
    match te, hne2 with
    | [], _ => rfl
    | [a], _ => rfl
    | [a, b], h => exact absurd rfl h
    | a :: b :: c :: rest, _ => rfl
  · intro r hr
    unfold bridge_text_embed at hr
    split at hr
    · split at hr
      · dsimp only at hr
        split at hr
        · cases hr
          assumption
        · simp at hr
      · simp at hr
    · split at hr
      · cases hr
        assumption
      · simp at hr

/-- C8 witness: the bridge theorem applied with L = 4 layers, a concrete
(raw, context) pair, and the concrete 3-element list [5, 6, 7], which is
below L but not a pair and therefore aborts. -/
theorem text_embed_bridge_spec_witness :
    2 < 4
    ∧ (bridge_text_embed [(1 : ℚ), 2] 4
        = Except.ok (List.replicate (4 - 1) (1 : ℚ) ++ [2])
      ∧ (4 < ([(5 : ℚ), 6, 7] : List ℚ).length →
          ∃ e, bridge_text_embed [(5 : ℚ), 6, 7] 4 = Except.error e)
      ∧ (([(5 : ℚ), 6, 7] : List ℚ).length < 4 → ([(5 : ℚ), 6, 7] : List ℚ).length ≠ 2 →
          ∃ e, bridge_text_embed [(5 : ℚ), 6, 7] 4 = Except.error e)
      ∧ (∀ r : List ℚ, bridge_text_embed [(5 : ℚ), 6, 7] 4 = Except.ok r →
          r.length = 4)) :=
  ⟨by decide, text_embed_bridge_spec (1 : ℚ) 2 [(5 : ℚ), 6, 7] 4 (by decide)⟩

/- ===================================================================
   Schema conversions (eval_utils.py lines 23-55).
   =================================================================== -/

/-- Event of a detection-style (tap) prediction file: fields `segment`,
`score`, `sentence`, optional `sentence_score`. Video names and sentences are
modelled as character lists. -/
structure TapEvent where
  segment : ℚ × ℚ
  score : ℚ
  sentence : List Char
  sentence_score : Option ℚ
deriving DecidableEq

/-- Event of a dense-video-captioning (dvc) prediction file: fields
`timestamp`, `proposal_score`, `sentence`, `sentence_score`. -/
structure DvcEvent where
  timestamp : ℚ × ℚ
  proposal_score : ℚ
  sentence : List Char
  sentence_score : ℚ
deriving DecidableEq

/-- Per-event field renames of `convert_tapjson_to_dvcjson` (eval_utils.py
30-33): `timestamp = pop('segment')`, `proposal_score = pop('score')`,
`sentence_score = pop('sentence_score', 0)`. -/
def tap_event_to_dvc (p : TapEvent) : DvcEvent :=
  { timestamp := p.segment
    proposal_score := p.score
    sentence := p.sentence
    sentence_score := p.sentence_score.getD 0 }

/-- The `results` transform of `convert_tapjson_to_dvcjson` (eval_utils.py
23-35): renames event fields and prefixes every video key with `"v_"`. -/
def convert_tapjson_to_dvcjson (results : List (List Char × List TapEvent)) :
    List (List Char × List DvcEvent) :=
  results.map (fun kv => ('v' :: '_' :: kv.1, kv.2.map tap_event_to_dvc))

/-- Per-event field renames of `convert_dvcjson_to_tapjson` (eval_utils.py
51-53): `segment = timestamp`, `score = get('proposal_score', 1.0)`,
`sentence`, `sentence_score = get('sentence_score', 0)`. -/
def dvc_event_to_tap (p : DvcEvent) : TapEvent :=
  { segment := p.timestamp
    score := p.proposal_score
    sentence := p.sentence
    sentence_score := some p.sentence_score }

/-- The `results` transform of `convert_dvcjson_to_tapjson` (eval_utils.py
38-55): renames event fields back and strips the first two characters
(`video_name[2:]`) from every video key. -/
def convert_dvcjson_to_tapjson (results : List (List Char × List DvcEvent)) :
    List (List Char × List TapEvent) :=
  results.map (fun kv => (kv.1.drop 2, kv.2.map dvc_event_to_tap))

/-- C9: tap-to-dvc followed by dvc-to-tap is lossless on video keys and on
each event's segment, sentence and score (the score comes back from
`proposal_score`): projecting the round-tripped file to these fields gives
back exactly the original file's projection. -/
theorem tap_dvc_roundtrip (results : List (List Char × List TapEvent)) :
    (convert_dvcjson_to_tapjson (convert_tapjson_to_dvcjson results)).map
        (fun kv => (kv.1, kv.2.map (fun e => (e.segment, e.sentence, e.score))))
      = results.map
        (fun kv => (kv.1, kv.2.map (fun e => (e.segment, e.sentence, e.score)))) := by
  simp only [convert_dvcjson_to_tapjson, convert_tapjson_to_dvcjson, List.map_map]
  apply List.map_congr_left
  intro kv _
  simp only [Function.comp_apply, List.map_map, Prod.mk.injEq]
  refine ⟨rfl, ?_⟩
  apply List.map_congr_left
  intro e _
  rfl

/- ===================================================================
   Reranking (eval_utils.py lines 145-164) and the predicted event count
   (pdvc/pdvc.py line 744).
   =================================================================== -/

/-- Python `str.split()` with no separator: splits on runs of whitespace and
drops empty pieces. The accumulator holds the current word reversed. -/
def py_split_aux : List Char → List Char → List (List Char)
  | [], acc => if acc.isEmpty then [] else [acc.reverse]
  | c :: rest, acc =>
    if c = ' ' ∨ c = '\t' ∨ c = '\n' then
      if acc.isEmpty then py_split_aux rest [] else acc.reverse :: py_split_aux rest []
    else py_split_aux rest (c :: acc)

/-- Word list of a sentence, as computed by `p['sentence'].split()`. -/
def py_split (s : List Char) : List (List Char) := py_split_aux s []

/-- One event object of a saved dvc prediction file, with the fields read by
`reranking` (eval_utils.py 151-160); written by `evaluate`
(eval_utils.py 225-238). -/
structure PredEvent where
  timestamp : ℚ × ℚ
  sentence : List Char
  proposal_score : ℚ
  sentence_score : ℚ
  cl_score : ℚ
  pred_event_count : ℕ
deriving DecidableEq

/-- Joint score attached to each event by `reranking` (eval_utils.py 151-156):
`alpha * sentence_score / (len(sentence.split())**temperature + 1e-5)
 + proposal_score + cl_score_weight * cl_score`.
The float exponent is modelled at natural-number temperatures (the pipeline
calls reranking with temperature 2.0, eval_utils.py 251) and the float 1e-5
as the rational 1/100000. -/
def joint_score (alpha cl_score_weight : ℚ) (temperature : ℕ) (p : PredEvent) : ℚ :=
  alpha * (p.sentence_score
      / (((py_split p.sentence).length : ℚ) ^ temperature + 1 / 100000))
    + p.proposal_score + cl_score_weight * p.cl_score

/-- Comparator of the stable descending sort
`sorted(v, key=lambda x: x['joint_score'], reverse=True)` (eval_utils.py 157):
x may come before y iff x's joint score is at least y's. -/
def joint_ge (alpha cl_score_weight : ℚ) (temperature : ℕ) (x y : PredEvent) : Prop :=
  joint_score alpha cl_score_weight temperature y
    ≤ joint_score alpha cl_score_weight temperature x

instance (alpha clw : ℚ) (temp : ℕ) : DecidableRel (joint_ge alpha clw temp) :=
  fun x y => inferInstanceAs (Decidable (joint_score alpha clw temp y
    ≤ joint_score alpha clw temp x))

instance (alpha clw : ℚ) (temp : ℕ) : IsTotal PredEvent (joint_ge alpha clw temp) :=
  ⟨fun _ _ => le_total _ _⟩

instance (alpha clw : ℚ) (temp : ℕ) : IsTrans PredEvent (joint_ge alpha clw temp) :=
  ⟨fun _ _ _ hxy hyz => le_trans hyz hxy⟩

/-- Comparator of the final stable sort `sorted(v, key=lambda x: x['timestamp'])`
(eval_utils.py 160): Python compares the two-element timestamp lists
lexicographically, i.e. by temporal start, ties broken by end. -/
def timestamp_le (x y : PredEvent) : Prop :=
  x.timestamp.1 < y.timestamp.1
    ∨ (x.timestamp.1 = y.timestamp.1 ∧ x.timestamp.2 ≤ y.timestamp.2)

instance : DecidableRel timestamp_le :=
  fun _ _ => inferInstanceAs (Decidable (_ ∨ _))

instance : IsTotal PredEvent timestamp_le := by
  refine ⟨fun x y => ?_⟩
  unfold timestamp_le
  rcases lt_trichotomy x.timestamp.1 y.timestamp.1 with h | h | h
  · exact Or.inl (Or.inl h)
  · rcases le_total x.timestamp.2 y.timestamp.2 with h2 | h2
    · exact Or.inl (Or.inr ⟨h, h2⟩)
    · exact Or.inr (Or.inr ⟨h.symm, h2⟩)
  · exact Or.inr (Or.inl h)

instance : IsTrans PredEvent timestamp_le := by
  refine ⟨fun x y z hxy hyz => ?_⟩
  unfold timestamp_le at *
  rcases hxy with h1 | ⟨e1, l1⟩ <;> rcases hyz with h2 | ⟨e2, l2⟩
  · exact Or.inl (h1.trans h2)
  · exact Or.inl (e2 ▸ h1)
  · exact Or.inl (e1 ▸ h2)
  · exact Or.inr ⟨e1.trans e2, l1.trans l2⟩

/-- Per-video body of `reranking` (eval_utils.py 149-161): attach the joint
score to every event, stable-sort descending by it, read `topN` from the
first element of the SORTED list (`v[0]['pred_event_count']` — an IndexError,
modelled as `none`, when the video's event list is empty), truncate to
`topN`, and stable-sort the truncated list by timestamp. -/
def reranking_video (alpha cl_score_weight : ℚ) (temperature : ℕ)
    (v : List PredEvent) : Option (List PredEvent) :=
  match List.insertionSort (joint_ge alpha cl_score_weight temperature) v with
  | [] => none
  | p0 :: rest =>
    some (List.insertionSort timestamp_le ((p0 :: rest).take p0.pred_event_count))

lemma reranking_video_eq (alpha clw : ℚ) (temp K : ℕ) (v : List PredEvent)
    (hne : v ≠ []) (hK : ∀ p ∈ v, p.pred_event_count = K) :
    reranking_video alpha clw temp v
      = some (List.insertionSort timestamp_le
          ((List.insertionSort (joint_ge alpha clw temp) v).take K)) := by
  have hperm := List.perm_insertionSort (joint_ge alpha clw temp) v
  cases hv : List.insertionSort (joint_ge alpha clw temp) v with
  | nil =>
    rw [hv] at hperm
    exact absurd (List.Perm.eq_nil hperm.symm) hne
  | cons p0 rest =>
    rw [hv] at hperm
    have hp0v : p0 ∈ v := hperm.mem_iff.mp (List.mem_cons_self _ _)
    have hcount : p0.pred_event_count = K := hK p0 hp0v
    unfold reranking_video
    rw [hv]
    dsimp only
    rw [hcount]

/-- C2: on a video whose (non-empty) event list all carries the per-video
predicted event count K, reranking returns the list obtained by
stable-sorting descending by the joint score
`alpha * sentence_score / (word_count ^ temperature + 1e-5) + proposal_score
 + cl_score_weight * cl_score`, truncating to K, and re-sorting by temporal
start; the result has min(K, number of events) events, is sorted by start
regardless of the input order, and contains only input events. -/
theorem reranking_sort_truncate_resort (alpha clw : ℚ) (temp K : ℕ)
    (v : List PredEvent) (hne : v ≠ [])
    (hK : ∀ p ∈ v, p.pred_event_count = K) :
    ∃ r, reranking_video alpha clw temp v = some r
    ∧ r = List.insertionSort timestamp_le
        ((List.insertionSort (joint_ge alpha clw temp) v).take K)
    ∧ r.length = min K v.length
    ∧ List.Sorted timestamp_le r
    ∧ List.Sorted (joint_ge alpha clw temp)
        (List.insertionSort (joint_ge alpha clw temp) v)
    ∧ (List.insertionSort (joint_ge alpha clw temp) v).Perm v
    ∧ ∀ p ∈ r, p ∈ v := by
  have hperm := List.perm_insertionSort (joint_ge alpha clw temp) v
  refine ⟨_, reranking_video_eq alpha clw temp K v hne hK, rfl, ?_, ?_, ?_, hperm, ?_⟩
  · rw [(List.perm_insertionSort timestamp_le _).length_eq, List.length_take,
      hperm.length_eq]
  · exact List.sorted_insertionSort timestamp_le _
  · exact List.sorted_insertionSort (joint_ge alpha clw temp) v
  · intro p hp
    have hp1 := (List.perm_insertionSort timestamp_le _).mem_iff.mp hp
    exact hperm.mem_iff.mp (List.mem_of_mem_take hp1)

/-- C2 counterexample: the claim quantifies over every saved prediction file,
but on a video whose event list is empty the code raises an IndexError at
`v[0]['pred_event_count']` (after sorting an empty list) instead of returning
the (empty) truncated list. -/
theorem reranking_empty_list_counterexample :
    reranking_video (3/10) 1 2 [] = none := rfl

/-- Concrete event used by the C2 witness. -/
def ev_c2_a : PredEvent :=
  { timestamp := (3, 4), sentence := ['h', 'i'], proposal_score := 1
    sentence_score := 2, cl_score := 0, pred_event_count := 2 }

/-- Concrete event used by the C2 witness. -/
def ev_c2_b : PredEvent :=
  { timestamp := (0, 1), sentence := ['y', 'o'], proposal_score := 2
    sentence_score := 1, cl_score := 1, pred_event_count := 2 }

/-- C2 witness: the reranking theorem applied to a concrete two-event video
with per-video predicted event count 2. -/
theorem reranking_sort_truncate_resort_witness :
    (([ev_c2_a, ev_c2_b] : List PredEvent) ≠ []
      ∧ ∀ p ∈ [ev_c2_a, ev_c2_b], p.pred_event_count = 2)
    ∧ (∃ r, reranking_video 1 1 2 [ev_c2_a, ev_c2_b] = some r
      ∧ r = List.insertionSort timestamp_le
          ((List.insertionSort (joint_ge 1 1 2) [ev_c2_a, ev_c2_b]).take 2)
      ∧ r.length = min 2 ([ev_c2_a, ev_c2_b] : List PredEvent).length
      ∧ List.Sorted timestamp_le r
      ∧ List.Sorted (joint_ge 1 1 2)
          (List.insertionSort (joint_ge 1 1 2) [ev_c2_a, ev_c2_b])
      ∧ (List.insertionSort (joint_ge 1 1 2) [ev_c2_a, ev_c2_b]).Perm
          [ev_c2_a, ev_c2_b]
      ∧ ∀ p ∈ r, p ∈ [ev_c2_a, ev_c2_b]) :=
  ⟨⟨by decide, by decide⟩,
   reranking_sort_truncate_resort 1 1 2 2 [ev_c2_a, ev_c2_b] (by decide) (by decide)⟩

/-- Index of the first maximal entry, as computed by `torch.argmax` along the
count-distribution axis; 0 on an empty list. -/
def argmax_from (best : ℚ) (best_idx i : ℕ) : List ℚ → ℕ
  | [] => best_idx
  | x :: xs =>
    if best < x then argmax_from x i (i + 1) xs else argmax_from best best_idx (i + 1) xs

/-- The `torch.argmax` of a count distribution. -/
def torch_argmax : List ℚ → ℕ
  | [] => 0
  | x :: xs => argmax_from x 0 1 xs

/-- Predicted event count attached to each PostProcess result (pdvc.py 744):
`outputs['pred_count'].argmax(dim=-1).clamp(min=1)`. -/
def pred_seq_len (counts : List ℚ) : ℕ :=
  max (torch_argmax counts) 1

/-- C10: the predicted event count is the argmax of the count distribution
clamped to a minimum of 1, so it is always at least 1; consequently, on any
video whose saved event list is non-empty (each record carrying this count),
reranking's truncation keeps at least one event. -/
theorem pred_event_count_at_least_one (counts : List ℚ) (alpha clw : ℚ)
    (temp : ℕ) (v : List PredEvent) (hne : v ≠ [])
    (hK : ∀ p ∈ v, p.pred_event_count = pred_seq_len counts) :
    1 ≤ pred_seq_len counts
    ∧ ∃ r, reranking_video alpha clw temp v = some r ∧ 1 ≤ r.length := by
  have h1 : 1 ≤ pred_seq_len counts := le_max_right _ _
  refine ⟨h1, _, reranking_video_eq alpha clw temp (pred_seq_len counts) v hne hK, ?_⟩
  rw [(List.perm_insertionSort timestamp_le _).length_eq, List.length_take,
    (List.perm_insertionSort (joint_ge alpha clw temp) v).length_eq]
  have hv : 1 ≤ v.length := List.length_pos.mpr hne
  exact le_min h1 hv

/-- Concrete event used by the C10 witness. -/
def ev_c10 : PredEvent :=
  { timestamp := (0, 1), sentence := ['a'], proposal_score := 1
    sentence_score := 0, cl_score := 0, pred_event_count := 1 }

/-- C10 witness: the count distribution [0, 3, 2] has argmax 1, clamped
count 1, and reranking a concrete one-event video keeps one event. -/
theorem pred_event_count_at_least_one_witness :
    (([ev_c10] : List PredEvent) ≠ []
      ∧ ∀ p ∈ [ev_c10], p.pred_event_count = pred_seq_len [(0 : ℚ), 3, 2])
    ∧ (1 ≤ pred_seq_len [(0 : ℚ), 3, 2]
      ∧ ∃ r, reranking_video 1 1 2 [ev_c10] = some r ∧ 1 ≤ r.length) :=
  ⟨⟨by decide, by decide⟩,
   pred_event_count_at_least_one [(0 : ℚ), 3, 2] 1 1 2 [ev_c10]
     (by decide) (by decide)⟩

/- ===================================================================
   PostProcess ranking (pdvc/pdvc.py lines 721-733).
   =================================================================== -/

/-- Comparator of `torch.topk` on the flattened score vector `l`: index i may
come before index j iff its score is larger, ties broken by ascending index
(`torch.argmax`/`topk` return the first maximal occurrence). -/
def topk_le (l : List ℚ) (i j : ℕ) : Prop :=
  l.getD j 0 < l.getD i 0 ∨ (l.getD i 0 = l.getD j 0 ∧ i ≤ j)

instance (l : List ℚ) : DecidableRel (topk_le l) :=
  fun _ _ => inferInstanceAs (Decidable (_ ∨ _))

instance (l : List ℚ) : IsTotal ℕ (topk_le l) := by
  refine ⟨fun i j => ?_⟩
  unfold topk_le
  rcases lt_trichotomy (l.getD i 0) (l.getD j 0) with h | h | h
  · exact Or.inr (Or.inl h)
  · rcases Nat.le_total i j with h2 | h2
    · exact Or.inl (Or.inr ⟨h, h2⟩)
    · exact Or.inr (Or.inr ⟨h.symm, h2⟩)
  · exact Or.inl (Or.inl h)

instance (l : List ℚ) : IsTrans ℕ (topk_le l) := by
  refine ⟨fun i j k hij hjk => ?_⟩
  unfold topk_le at *
  rcases hij with h1 | ⟨e1, l1⟩ <;> rcases hjk with h2 | ⟨e2, l2⟩
  · exact Or.inl (h2.trans h1)
  · exact Or.inl (e2 ▸ h1)
  · exact Or.inl (e1 ▸ h2)
  · exact Or.inr ⟨e1.trans e2, l1.trans l2⟩

/-- Index list returned by `torch.topk(flat, k)`: the k indices of largest
value, in descending value order (stable in the index on ties). -/
def torch_topk_indexes (l : List ℚ) (k : ℕ) : List ℕ :=
  (List.insertionSort (topk_le l) (List.range l.length)).take k

/-- Ranking step of `PostProcess.forward` for one video (pdvc.py 725-731):
`prob` is the per-query-per-class sigmoid score matrix (the elementwise
sigmoid of `out_logits`, computed by the external `torch.sigmoid`), with one
row per event query. With ranking-by-logit enabled:
`topk_values, topk_indexes = torch.topk(prob.view(N, -1), N_q, dim=1)`;
otherwise: `prob.view(N, -1), torch.arange(N_q)`. Returns
(`scores`, `topk_indexes`). -/
def postprocess_rank (enable_ranking_by_logit : Bool) (prob : List (List ℚ)) :
    List ℚ × List ℕ :=
  if enable_ranking_by_logit then
    (((torch_topk_indexes prob.flatten prob.length).map (fun i => prob.flatten.getD i 0)),
      torch_topk_indexes prob.flatten prob.length)
  else
    (prob.flatten, List.range prob.length)

/-- Query index recovered from a flattened index:
`topk_boxes = topk_indexes // out_logits.shape[2]` (pdvc.py 732). -/
def topk_box (N_class i : ℕ) : ℕ := i / N_class

/-- Class label recovered from a flattened index:
`labels = topk_indexes % out_logits.shape[2]` (pdvc.py 733). -/
def topk_label (N_class i : ℕ) : ℕ := i % N_class

lemma flatten_getD_div_mod (prob : List (List ℚ)) (c : ℕ) (hc : 0 < c)
    (hrow : ∀ row ∈ prob, row.length = c) (i : ℕ) (hi : i < prob.flatten.length) :
    prob.flatten.getD i 0 = (prob.getD (i / c) []).getD (i % c) 0 := by
  induction prob generalizing i with
  | nil => simp at hi
  | cons row rest ih =>
    have hlen : row.length = c := hrow row (List.mem_cons_self _ _)
    have hrest : ∀ r ∈ rest, r.length = c := fun r hr => hrow r (List.mem_cons_of_mem _ hr)
    by_cases h : i < c
    · rw [Nat.div_eq_of_lt h, Nat.mod_eq_of_lt h, List.flatten_cons,
        List.getD_append _ _ _ _ (by rw [hlen]; exact h)]
      simp
    · have h1 : c ≤ i := le_of_not_lt h
      have hi2 : i - c < rest.flatten.length := by
        rw [List.flatten_cons, List.length_append, hlen] at hi
        omega
      rw [Nat.div_eq_sub_div hc h1, Nat.mod_eq_sub_mod h1, List.flatten_cons,
        List.getD_append_right _ _ _ _ (by rw [hlen]; exact h1), hlen,
        List.getD_cons_succ]
      exact ih hrest (i - c) hi2

lemma flatten_rows_one (prob : List (List ℚ))
    (hrow : ∀ row ∈ prob, row.length = 1) :
    prob.flatten = prob.map (fun row => row.getD 0 0) := by
  induction prob with
  | nil => rfl
  | cons row rest ih =>
    have h1 : row.length = 1 := hrow row (List.mem_cons_self _ _)
    have hrest : ∀ r ∈ rest, r.length = 1 := fun r hr => hrow r (List.mem_cons_of_mem _ hr)
    cases row with
    | nil => simp at h1
    | cons a tail =>
      cases tail with
      | nil => simp [List.flatten_cons, ih hrest]
      | cons b t2 => simp at h1

/-- C4 (amended): with ranking-by-logit enabled, PostProcess selects, per
video, min(N_q, N_q * N_class) flattened (query, class) indices whose sigmoid
scores dominate every unselected entry, pairing each selected index with its
score, and the entry at a selected flattened index i is exactly row i // N_class
(the query, so one query may contribute several hypotheses) at column
i % N_class (the label); with ranking-by-logit disabled it emits the index
list 0..N_q-1 together with the whole flattened sigmoid matrix as the score
vector, which is the per-query pass-through of sigmoid scores exactly when
the class count is 1. -/
theorem postprocess_ranking_selection (prob : List (List ℚ)) (N_class : ℕ)
    (hc : 0 < N_class) (hrow : ∀ row ∈ prob, row.length = N_class) :
    ((postprocess_rank true prob).2.length = min prob.length prob.flatten.length
    ∧ (postprocess_rank true prob).1
        = (postprocess_rank true prob).2.map (fun i => prob.flatten.getD i 0)
    ∧ (∀ i ∈ (postprocess_rank true prob).2, i < prob.flatten.length)
    ∧ (∀ i ∈ (postprocess_rank true prob).2, ∀ j, j < prob.flatten.length →
        j ∉ (postprocess_rank true prob).2 →
        prob.flatten.getD j 0 ≤ prob.flatten.getD i 0)
    ∧ (∀ i ∈ (postprocess_rank true prob).2,
        prob.flatten.getD i 0
          = (prob.getD (topk_box N_class i) []).getD (topk_label N_class i) 0))
    ∧ ((postprocess_rank false prob).2 = List.range prob.length
    ∧ (postprocess_rank false prob).1 = prob.flatten
    ∧ (N_class = 1 →
        (postprocess_rank false prob).1 = prob.map (fun row => row.getD 0 0))) := by
  have hperm := List.perm_insertionSort (topk_le prob.flatten)
    (List.range prob.flatten.length)
  have hmem : ∀ i ∈ (postprocess_rank true prob).2, i < prob.flatten.length := by
    intro i hi
    simp only [postprocess_rank, if_pos, torch_topk_indexes] at hi
    exact List.mem_range.mp (hperm.mem_iff.mp (List.mem_of_mem_take hi))
  refine ⟨⟨?_, rfl, hmem, ?_, ?_⟩, rfl, rfl, ?_⟩
  · simp only [postprocess_rank, if_pos, torch_topk_indexes]
    rw [List.length_take, hperm.length_eq, List.length_range]
  · intro i hi j hj hjn
    simp only [postprocess_rank, if_pos, torch_topk_indexes] at hi hjn
    have hsorted : List.Pairwise (topk_le prob.flatten)
        (List.insertionSort (topk_le prob.flatten) (List.range prob.flatten.length)) :=
      List.sorted_insertionSort (topk_le prob.flatten) _
    have hsplit := List.take_append_drop prob.length
      (List.insertionSort (topk_le prob.flatten) (List.range prob.flatten.length))
    have hjs : j ∈ List.insertionSort (topk_le prob.flatten)
        (List.range prob.flatten.length) :=
      hperm.mem_iff.mpr (List.mem_range.mpr hj)
    rw [← hsplit] at hjs hsorted
    have hjdrop : j ∈ (List.insertionSort (topk_le prob.flatten)
        (List.range prob.flatten.length)).drop prob.length := by
      rcases List.mem_append.mp hjs with h | h
      · exact absurd h hjn
      · exact h
    have hrel : topk_le prob.flatten i j :=
      (List.pairwise_append.mp hsorted).2.2 i hi j hjdrop
    rcases hrel with h | ⟨h, _⟩
    · exact le_of_lt h
    · exact le_of_eq h.symm
  · intro i hi
    exact flatten_getD_div_mod prob N_class hc hrow i (hmem i hi)
  · intro h1
    subst h1
    exact flatten_rows_one prob hrow

/-- C4 counterexample: with ranking-by-logit disabled and a video with one
query and two classes, the emitted score vector has two entries for a single
query index, so the branch is not a pass-through of all N_q queries with their
per-query sigmoid scores (the claim's score list would have N_q = 1 entry). -/
theorem postprocess_rank_disabled_counterexample :
    (postprocess_rank false [[(1 : ℚ)/2, 1/4]]).1.length
      ≠ (postprocess_rank false [[(1 : ℚ)/2, 1/4]]).2.length := by
  decide

/-- C4 witness: the ranking theorem applied to the concrete score matrix
[[1], [3]] (two queries, one class). -/
theorem postprocess_ranking_selection_witness :
    ((0 : ℕ) < 1 ∧ ∀ row ∈ [[(1 : ℚ)], [3]], row.length = 1)
    ∧ (((postprocess_rank true [[(1 : ℚ)], [3]]).2.length
          = min ([[(1 : ℚ)], [3]] : List (List ℚ)).length
              ([[(1 : ℚ)], [3]] : List (List ℚ)).flatten.length
      ∧ (postprocess_rank true [[(1 : ℚ)], [3]]).1
          = (postprocess_rank true [[(1 : ℚ)], [3]]).2.map
              (fun i => ([[(1 : ℚ)], [3]] : List (List ℚ)).flatten.getD i 0)
      ∧ (∀ i ∈ (postprocess_rank true [[(1 : ℚ)], [3]]).2,
          i < ([[(1 : ℚ)], [3]] : List (List ℚ)).flatten.length)
      ∧ (∀ i ∈ (postprocess_rank true [[(1 : ℚ)], [3]]).2, ∀ j,
          j < ([[(1 : ℚ)], [3]] : List (List ℚ)).flatten.length →
          j ∉ (postprocess_rank true [[(1 : ℚ)], [3]]).2 →
          ([[(1 : ℚ)], [3]] : List (List ℚ)).flatten.getD j 0
            ≤ ([[(1 : ℚ)], [3]] : List (List ℚ)).flatten.getD i 0)
      ∧ (∀ i ∈ (postprocess_rank true [[(1 : ℚ)], [3]]).2,
          ([[(1 : ℚ)], [3]] : List (List ℚ)).flatten.getD i 0
            = (([[(1 : ℚ)], [3]] : List (List ℚ)).getD (topk_box 1 i) []).getD
                (topk_label 1 i) 0))
    ∧ ((postprocess_rank false [[(1 : ℚ)], [3]]).2
          = List.range ([[(1 : ℚ)], [3]] : List (List ℚ)).length
      ∧ (postprocess_rank false [[(1 : ℚ)], [3]]).1
          = ([[(1 : ℚ)], [3]] : List (List ℚ)).flatten
      ∧ (1 = 1 →
          (postprocess_rank false [[(1 : ℚ)], [3]]).1
            = ([[(1 : ℚ)], [3]] : List (List ℚ)).map (fun row => row.getD 0 0)))) :=
  ⟨⟨by decide, by decide⟩,
   postprocess_ranking_selection [[(1 : ℚ)], [3]] 1 (by decide) (by decide)⟩

/- ===================================================================
   Decoder-layer reference selection and segment refinement
   (pdvc/pdvc.py lines 261-289 in parallel_prediction_full and
    368-388 in parallel_prediction_matched).
   =================================================================== -/

/-- Abstract tensor primitives used by the per-layer loop: the per-layer box
head `bbox_head[l_id]`, the external `torch.sigmoid` / `inverse_sigmoid`,
tensor addition `tmp += reference` (last dimension 2) and the partial
addition `tmp[..., :1] += reference` (last dimension 1), and the last
dimension `reference.shape[-1]`. -/
structure DecoderPrims (α : Type) where
  bbox_head : ℕ → α → α
  sigmoid : α → α
  inverse_sigmoid : α → α
  add : α → α → α
  add_first : α → α → α
  last_dim : α → ℕ

/-- Reference segment used at layer `l_id`
(`reference = init_reference if l_id == 0 else inter_references[l_id - 1]`,
pdvc.py 262-265 and 370-371). -/
def layer_reference {α : Type} (init_reference : α) (inter_references : List α)
    (l_id : ℕ) : α :=
  if l_id = 0 then init_reference
  else inter_references.getD (l_id - 1) init_reference

/-- Output segment of one decoder layer (pdvc.py 269 and 280-289, identically
374 and 379-388): `tmp = bbox_head[l_id](hs_lid)`; with iterative refinement
disabled the output is the raw reference; otherwise
`reference = inverse_sigmoid(reference)`, `tmp += reference` when the last
dimension is 2 (`tmp[..., :1] += reference` when it is 1, any other dimension
is an assertion failure), and the output is `tmp.sigmoid()`. -/
def output_coord {α : Type} (P : DecoderPrims α) (hs_lid reference : α)
    (disable_iterative_refine : Bool) (l_id : ℕ) : Option α :=
  let tmp := P.bbox_head l_id hs_lid
  if disable_iterative_refine then some reference
  else
    let reference2 := P.inverse_sigmoid reference
    if P.last_dim reference2 = 2 then some (P.sigmoid (P.add tmp reference2))
    else if P.last_dim reference2 = 1 then
      some (P.sigmoid (P.add_first tmp reference2))
    else none

/-- The `outputs_coords` list assembled by the per-layer loop of
`parallel_prediction_full` (pdvc.py 261-315). -/
def parallel_prediction_full_coords {α : Type} (P : DecoderPrims α) (hs : List α)
    (init_reference : α) (inter_references : List α)
    (disable_iterative_refine : Bool) : List (Option α) :=
  hs.enum.map (fun le =>
    output_coord P le.2 (layer_reference init_reference inter_references le.1)
      disable_iterative_refine le.1)

/-- The `outputs_coords` list assembled by the (textually duplicated)
per-layer loop of `parallel_prediction_matched` (pdvc.py 368-415). -/
def parallel_prediction_matched_coords {α : Type} (P : DecoderPrims α) (hs : List α)
    (init_reference : α) (inter_references : List α)
    (disable_iterative_refine : Bool) : List (Option α) :=
  hs.enum.map (fun le =>
    output_coord P le.2 (layer_reference init_reference inter_references le.1)
      disable_iterative_refine le.1)

lemma enum_map_coords_get {α : Type} (P : DecoderPrims α) (hs : List α)
    (init_reference : α) (inter_references : List α) (dis : Bool) (l_id : ℕ)
    (hl : l_id < hs.length) :
    (hs.enum.map (fun le =>
        output_coord P le.2 (layer_reference init_reference inter_references le.1)
          dis le.1)).get? l_id
      = some (output_coord P (hs.getD l_id init_reference)
          (layer_reference init_reference inter_references l_id) dis l_id) := by
  rw [List.get?_eq_getElem?, List.getElem?_map, List.getElem?_enum,
    List.getElem?_eq_getElem hl, List.getD_eq_getElem _ _ hl]
  rfl

/-- C3: in both prediction policies, layer 0 uses the initial reference and
layer l > 0 uses the layer l-1 intermediate reference; with iterative
refinement enabled the layer's output segment is
`sigmoid(bbox_head[l](hs_l) + inverse_sigmoid(reference))` (two-dimensional
references), and with refinement disabled it is the raw reference unchanged. -/
theorem decoder_layer_reference_and_refinement {α : Type} (P : DecoderPrims α)
    (hs : List α) (init_reference : α) (inter_references : List α)
    (disable_iterative_refine : Bool) (l_id : ℕ) (hl : l_id < hs.length)
    (hinter : l_id - 1 < inter_references.length) :
    (parallel_prediction_full_coords P hs init_reference inter_references
        disable_iterative_refine).get? l_id
      = some (output_coord P (hs.getD l_id init_reference)
          (layer_reference init_reference inter_references l_id)
          disable_iterative_refine l_id)
    ∧ (parallel_prediction_matched_coords P hs init_reference inter_references
        disable_iterative_refine).get? l_id
      = some (output_coord P (hs.getD l_id init_reference)
          (layer_reference init_reference inter_references l_id)
          disable_iterative_refine l_id)
    ∧ layer_reference init_reference inter_references 0 = init_reference
    ∧ (0 < l_id → layer_reference init_reference inter_references l_id
        = inter_references.get ⟨l_id - 1, hinter⟩)
    ∧ (disable_iterative_refine = true →
        output_coord P (hs.getD l_id init_reference)
            (layer_reference init_reference inter_references l_id) true l_id
          = some (layer_reference init_reference inter_references l_id))
    ∧ (P.last_dim (P.inverse_sigmoid
          (layer_reference init_reference inter_references l_id)) = 2 →
        output_coord P (hs.getD l_id init_reference)
            (layer_reference init_reference inter_references l_id) false l_id
          = some (P.sigmoid (P.add (P.bbox_head l_id (hs.getD l_id init_reference))
              (P.inverse_sigmoid
                (layer_reference init_reference inter_references l_id))))) := by
  refine ⟨enum_map_coords_get P hs init_reference inter_references _ l_id hl,
    enum_map_coords_get P hs init_reference inter_references _ l_id hl,
    by simp [layer_reference], ?_, ?_, ?_⟩
  · intro hpos
    have hne : l_id ≠ 0 := Nat.pos_iff_ne_zero.mp hpos
    rw [layer_reference, if_neg hne, List.getD_eq_getElem _ _ hinter,
      List.get_eq_getElem]
  · intro h
    simp [output_coord]
  · intro hdim
    simp [output_coord, hdim]

/-- Concrete primitives over ℚ used by the C3 witness: the box head adds the
layer index, sigmoid and inverse sigmoid are concrete injections, addition is
rational addition, and every tensor reports last dimension 2. -/
def example_prims : DecoderPrims ℚ :=
  { bbox_head := fun l_id x => x + l_id
    sigmoid := fun x => x + 1
    inverse_sigmoid := fun x => x - 1
    add := fun a b => a + b
    add_first := fun a b => a + b
    last_dim := fun _ => 2 }

/-- C3 witness: the layer theorem applied at layer 1 of a concrete two-layer
decoder state with initial reference 5 and intermediate references [7, 9]. -/
theorem decoder_layer_reference_and_refinement_witness :
    ((1 : ℕ) < ([2, 3] : List ℚ).length ∧ 1 - 1 < ([7, 9] : List ℚ).length)
    ∧ ((parallel_prediction_full_coords example_prims [2, 3] 5 [7, 9] false).get? 1
        = some (output_coord example_prims (([2, 3] : List ℚ).getD 1 5)
            (layer_reference 5 [7, 9] 1) false 1)
      ∧ (parallel_prediction_matched_coords example_prims [2, 3] 5 [7, 9] false).get? 1
        = some (output_coord example_prims (([2, 3] : List ℚ).getD 1 5)
            (layer_reference 5 [7, 9] 1) false 1)
      ∧ layer_reference (5 : ℚ) [7, 9] 0 = 5
      ∧ (0 < 1 → layer_reference (5 : ℚ) [7, 9] 1
          = ([7, 9] : List ℚ).get ⟨1 - 1, by decide⟩)
      ∧ (false = true →
          output_coord example_prims (([2, 3] : List ℚ).getD 1 5)
              (layer_reference 5 [7, 9] 1) true 1
            = some (layer_reference (5 : ℚ) [7, 9] 1))
      ∧ (example_prims.last_dim (example_prims.inverse_sigmoid
            (layer_reference (5 : ℚ) [7, 9] 1)) = 2 →
          output_coord example_prims (([2, 3] : List ℚ).getD 1 5)
              (layer_reference 5 [7, 9] 1) false 1
            = some (example_prims.sigmoid (example_prims.add
                (example_prims.bbox_head 1 (([2, 3] : List ℚ).getD 1 5))
                (example_prims.inverse_sigmoid (layer_reference (5 : ℚ) [7, 9] 1)))))) :=
  ⟨⟨by decide, by decide⟩,
   decoder_layer_reference_and_refinement example_prims [2, 3] 5 [7, 9] false 1
     (by decide) (by decide)⟩
